import Mathlib

/-!
Verification development for a RAG (retrieval-augmented generation) web
application.  The application ingests documents (PDF / text / CSV uploads,
raw text, scraped web pages), splits them into bounded chunks, stores them
in an external Qdrant vector collection, and answers chat questions from
the top-k retrieved chunks.

The embedding below models, character for character where possible, the
JavaScript request handlers of the repository (the main Express server,
the Day4-RAG Express variant, and the Next.js pages-API handlers).  The
external collaborators (embedding model, Qdrant database, chat model, PDF
extractor, HTML parser) are modelled as explicit inputs or as a small
state machine.  Strings are modelled as Lean strings; where character
lists are needed the JS string is its list of characters.  JS whitespace
handling is modelled with the ASCII whitespace predicate.
-/

namespace RagVerif

/-- Model of JS text.trim(): drop leading and trailing whitespace characters
from a list of characters. -/
def trimChars (l : List Char) : List Char :=
  ((l.dropWhile Char.isWhitespace).reverse.dropWhile Char.isWhitespace).reverse

/-- Lift trimChars to strings (model of JS text.trim()). -/
def trimStr (s : String) : String :=
  String.mk (trimChars s.data)

/-- Model of the regex replacement of every whitespace run by a single space,
as used by scrapeWebsite.  The Boolean flag records whether the previous
character was whitespace (i.e. whether we are inside a run). -/
def collapseWsGo : Bool → List Char → List Char
  | _, [] => []
  | inRun, c :: rest =>
    if c.isWhitespace then
      (if inRun then [] else [' ']) ++ collapseWsGo true rest
    else
      c :: collapseWsGo false rest

/-- Model of scrapeWebsite's normalisation of the extracted body text:
collapse whitespace runs to single spaces, then trim. -/
def collapseWsTrim (s : String) : String :=
  String.mk (trimChars (collapseWsGo false s.data))

/-- Helper for splitting: prepend a character to the first piece of a piece
list (used to build up the piece preceding the next separator occurrence). -/
def consHead (c : Char) : List (List Char) → List (List Char)
  | [] => [[c]]
  | p :: ps => (c :: p) :: ps

/-- Modelled from the spec: the Chunk Splitter of spec section 4.2 is realised
in the repository by the external RecursiveCharacterTextSplitter of the
@langchain/textsplitters package, whose implementation is not part of this
repository; only its call sites (chunkSize 1000, chunkOverlap 200) are.
jsSplitGo models splitting a character list on a non-empty separator,
occurrence by occurrence, exactly as JS text.split(sep) does.  The fuel
argument makes the recursion structural; any fuel of at least the length of
the text gives the intended result (the fuel-exhausted fallback is never
reached then). -/
def jsSplitGo (sep : List Char) : Nat → List Char → List (List Char)
  | _, [] => [[]]
  | 0, t => [t]
  | fuel + 1, c :: rest =>
    if sep.isPrefixOf (c :: rest) then
      [] :: jsSplitGo sep fuel (rest.drop (sep.length - 1))
    else
      consHead c (jsSplitGo sep fuel rest)

/-- Modelled from the spec: JS text.split(sep), including the special case of
the empty separator, which splits the text into its individual characters. -/
def jsSplit (sep text : List Char) : List (List Char) :=
  if sep.isEmpty then text.map (fun c => [c])
  else jsSplitGo sep text.length text

/-- Modelled from the spec: the priority-ordered separator list of spec
section 4.2 — paragraph break, line break, sentence-ending punctuation,
space, empty string. -/
def specSeparators : List (List Char) :=
  [['\n', '\n'], ['\n'], ['.', ' '], [' '], []]

/-- Modelled from the spec: a separator is acceptable for a text when every
resulting piece fits within the chunk size. -/
def piecesFit (cs : Nat) (sep text : List Char) : Bool :=
  (jsSplit sep text).all (fun p => decide (p.length ≤ cs))

/-- Modelled from the spec: choose the coarsest separator (first in priority
order) that keeps every resulting piece within the chunk size.  With the
empty separator in the list this always succeeds for a positive chunk size;
the default is only a fallback. -/
def chooseSep (cs : Nat) (text : List Char) : List Char :=
  (specSeparators.find? (fun sep => piecesFit cs sep text)).getD []

/-- Last n characters of a character list (used for the overlap carry). -/
def takeLast (n : Nat) (l : List Char) : List Char :=
  l.drop (l.length - n)

/-- Start of the chunk following an emitted chunk a: the last overlap-many
characters of a (clipped so that, together with the separator and the next
piece p, the new chunk still fits within the chunk size), then the
separator, then p; when nothing can be carried, just p. -/
def nextAcc (sep : List Char) (cs ov : Nat) (p a : List Char) : List Char :=
  if (takeLast (min ov (cs - (sep.length + p.length))) a).isEmpty then p
  else takeLast (min ov (cs - (sep.length + p.length))) a ++ sep ++ p

/-- Modelled from the spec: greedily merge adjacent pieces back together, with
the separator they were split on, up to the chunk size; when a chunk is
emitted, step back by the overlap amount, i.e. the last chunkOverlap
characters of the emitted chunk seed the next chunk (clipped so that the
next chunk still fits within the chunk size).  The accumulator is an Option
so that an accumulated empty piece is distinct from no accumulation. -/
def mergeGo (sep : List Char) (cs ov : Nat) :
    List (List Char) → Option (List Char) → List (List Char)
  | [], none => []
  | [], some a => [a]
  | p :: ps, none => mergeGo sep cs ov ps (some p)
  | p :: ps, some a =>
    if (a ++ sep ++ p).length ≤ cs then
      mergeGo sep cs ov ps (some (a ++ sep ++ p))
    else
      a :: mergeGo sep cs ov ps (some (nextAcc sep cs ov p a))

/-- Modelled from the spec: split one text into chunks — choose the coarsest
fitting separator, split, greedily re-merge with overlap step-back, and keep
only non-empty chunks (a document of only separator characters may yield an
empty chunk list, spec section 4.2). -/
def splitText (cs ov : Nat) (text : List Char) : List (List Char) :=
  (mergeGo (chooseSep cs text) cs ov (jsSplit (chooseSep cs text) text) none).filter
    (fun c => !c.isEmpty)

/-- Chunk size used at every splitter call site of the repository. -/
def chunkSize : Nat := 1000

/-- Chunk overlap used at every splitter call site of the repository. -/
def chunkOverlap : Nat := 200

/-- String-level wrapper of the splitter. -/
def splitTextStr (cs ov : Nat) (s : String) : List String :=
  (splitText cs ov s.data).map String.mk

/-- Metadata of a document or chunk: a JS object with a source identifier and
a handful of optional fields, modelled as a structure of Options.  The JS
pair metadata.loc.pageNumber / metadata.page used by the chat handlers is
collapsed into the single optional page field. -/
structure Metadata where
  source : String := ""
  type : Option String := none
  note : Option String := none
  error : Option String := none
  pages : Option Nat := none
  timestamp : Option String := none
  extractedAt : Option String := none
  page : Option Nat := none
deriving DecidableEq

/-- Document (and chunk) as handled by the servers: page content plus
metadata. -/
structure Doc where
  pageContent : String
  metadata : Metadata
deriving DecidableEq

/-- Chunking of a list of documents (textSplitter.splitDocuments): each
document is split and every chunk inherits the parent document's metadata. -/
def splitDocuments (cs ov : Nat) (docs : List Doc) : List Doc :=
  docs.flatMap (fun d =>
    (splitTextStr cs ov d.pageContent).map (fun c => { pageContent := c, metadata := d.metadata }))

/-- HTTP JSON response as produced by the handlers: status code plus the
optional body fields the handlers use. -/
structure Resp where
  status : Nat
  error : Option String := none
  message : Option String := none
  chunks : Option Nat := none
  reply : Option String := none
  storeStatus : Option String := none
deriving DecidableEq

/-- Helper message of processPDF for a PDF with no extractable text. -/
def pdfNoTextMessage (filename : String) : String :=
  "PDF file \"" ++ filename ++
    "\" was processed but contains no extractable text. It may be an image-based PDF or contain only graphics."

/-- Fixed part of the explanatory message processPDF produces when text
extraction throws; the error detail is appended after it. -/
def pdfFailurePre (filename : String) : String :=
  "PDF file \"" ++ filename ++ "\" has been uploaded but automatic text extraction failed. " ++
    "\n\nTo use this PDF content:\n1. Open the PDF in a PDF reader\n2. Select all text (Ctrl+A) and copy it (Ctrl+C)\n3. Paste the text in the \"Text Input\" section below\n4. Click \"Add Text\" to add it to the knowledge base\n\nError details: "

/-- Page-wise concatenation of extracted PDF pages with a page-number
header, as processPDF does on successful extraction. -/
def pdfPagesJoined (pages : List String) : String :=
  String.intercalate "\n\n"
    (pages.enum.map (fun ip => "Page " ++ toString (ip.1 + 1) ++ ":\n" ++ ip.2))

/-- Model of processPDF (main server and pages-API upload handler).  The
external WebPDFLoader call is modelled by its outcome: an error message when
loading throws, or the list of extracted page texts.  The load never fails
the request: the error case degrades to a single placeholder document. -/
def processPDF (now : String) (filename : String) (load : Except String (List String)) :
    List Doc :=
  match load with
  | .error e =>
    [{ pageContent := pdfFailurePre filename ++ e,
       metadata := { source := filename, type := some "pdf", error := some e,
                     note := some "Manual extraction required" } }]
  | .ok pages =>
    if pages.isEmpty then
      [{ pageContent := pdfNoTextMessage filename,
         metadata := { source := filename, type := some "pdf",
                       note := some "No text content found" } }]
    else
      [{ pageContent := trimStr (pdfPagesJoined pages),
         metadata := { source := filename, type := some "pdf", pages := some pages.length,
                       extractedAt := some now } }]

/-- Model of processTextFile: decode the uploaded bytes as UTF-8 text (the
decoded text is the input here) and wrap it in a single document whose
metadata carries only the source filename. -/
def processTextFile (contentStr filename : String) : List Doc :=
  [{ pageContent := contentStr, metadata := { source := filename } }]

/-- Model of scrapeWebsite.  The axios fetch and the cheerio extraction of
the body text after removing script, style, nav, footer and header elements
are external; their outcome is the input: an error message when the fetch
throws, or the extracted body text.  The code collapses whitespace runs and
trims, and always wraps the result — even when empty — in exactly one
document. -/
def scrapeWebsite (url : String) (fetched : Except String String) : Except String (List Doc) :=
  match fetched with
  | .error e => .error ("Failed to scrape website: " ++ e)
  | .ok bodyText =>
    .ok [{ pageContent := collapseWsTrim bodyText,
           metadata := { source := url, type := some "website" } }]

/-- Ingestion input kinds accepted by the Source Normalizer, tagged with the
data the respective handler passes on (external outcomes made explicit). -/
inductive IngestionInput where
  | pdfFile (filename : String) (load : Except String (List String))
  | textFile (filename : String) (contentStr : String)
  | csvFile (filename : String) (contentStr : String)
  | rawText (text : String)
  | website (url : String) (fetched : Except String String)

/-- Source Normalizer: documents produced for each ingestion kind, exactly as
the handlers build them (upload handler for files, text handler for raw
text, scrape handler for websites). -/
def normalize (now : String) : IngestionInput → Except String (List Doc)
  | .pdfFile fn load => .ok (processPDF now fn load)
  | .textFile fn c => .ok (processTextFile c fn)
  | .csvFile fn c => .ok (processTextFile c fn)
  | .rawText t =>
    if trimStr t = "" then .error "No text provided."
    else .ok [{ pageContent := trimStr t,
                metadata := { source := "direct-input", type := some "text",
                              timestamp := some now } }]
  | .website url fetched => scrapeWebsite url fetched

/-- Source identifier each ingestion kind is documented to carry. -/
def inputSource : IngestionInput → String
  | .pdfFile fn _ => fn
  | .textFile fn _ => fn
  | .csvFile fn _ => fn
  | .rawText _ => "direct-input"
  | .website url _ => url

/-- Type tag each ingestion kind actually attaches (none for text/CSV file
uploads, whose metadata carries only the source). -/
def actualTypeTag : IngestionInput → Option String
  | .pdfFile _ _ => some "pdf"
  | .textFile _ _ => none
  | .csvFile _ _ => none
  | .rawText _ => some "text"
  | .website _ _ => some "website"

/-- Result of the /api/text handler: the response, the normalized document
(when one was built), the chunks, and whether the vector-store write path
(getVectorStore / addDocuments, and with it the embedding service) was
reached. -/
structure TextResult where
  resp : Resp
  doc : Option Doc
  splits : List Doc
  storeCalled : Bool
deriving DecidableEq

/-- Model of the main server's POST /api/text handler.  A missing or falsy
text field, or text that trims to the empty string, is rejected with 400
before the splitter or any external service is touched; otherwise a single
document with the trimmed text, source direct-input and type text is
chunked and written. -/
def textHandler (now : String) (reqText : Option String) : TextResult :=
  match reqText with
  | none => ⟨{ status := 400, error := some "No text provided." }, none, [], false⟩
  | some t =>
    if trimStr t = "" then
      ⟨{ status := 400, error := some "No text provided." }, none, [], false⟩
    else
      let doc : Doc :=
        { pageContent := trimStr t,
          metadata := { source := "direct-input", type := some "text", timestamp := some now } }
      let splits := splitDocuments chunkSize chunkOverlap [doc]
      ⟨{ status := 200, message := some "Text content added to RAG store successfully.",
         chunks := some splits.length }, some doc, splits, true⟩

/-- Uploaded file as the handlers see it after multer: original name, MIME
type, and the buffer (modelled by its UTF-8 decoding). -/
structure UploadFile where
  originalname : String
  mimetype : String
  contentStr : String
deriving DecidableEq

/-- Result of the /api/upload handler: response, normalized documents,
chunks, and whether the vector-store write path was reached. -/
structure UploadResult where
  resp : Resp
  docs : List Doc
  splits : List Doc
  storeCalled : Bool
deriving DecidableEq

/-- Model of the main server's POST /api/upload handler: no file is a 400;
PDFs go through processPDF (whose extraction outcome is the load argument),
text/plain and text/csv through processTextFile, anything else is a 400
naming the MIME type; the resulting documents are chunked and written. -/
def uploadHandler (now : String) (file : Option UploadFile)
    (load : Except String (List String)) : UploadResult :=
  match file with
  | none => ⟨{ status := 400, error := some "No file uploaded." }, [], [], false⟩
  | some f =>
    if f.mimetype = "application/pdf" then
      let docs := processPDF now f.originalname load
      let splits := splitDocuments chunkSize chunkOverlap docs
      ⟨{ status := 200,
         message := some ("File '" ++ f.originalname ++ "' uploaded and processed successfully."),
         chunks := some splits.length }, docs, splits, true⟩
    else if f.mimetype = "text/plain" ∨ f.mimetype = "text/csv" then
      let docs := processTextFile f.contentStr f.originalname
      let splits := splitDocuments chunkSize chunkOverlap docs
      ⟨{ status := 200,
         message := some ("File '" ++ f.originalname ++ "' uploaded and processed successfully."),
         chunks := some splits.length }, docs, splits, true⟩
    else
      ⟨{ status := 400, error := some ("Unsupported file type: " ++ f.mimetype) }, [], [], false⟩

/-- Result of the /api/scrape handler. -/
structure ScrapeResult where
  resp : Resp
  splits : List Doc
  storeCalled : Bool
deriving DecidableEq

/-- Model of the main server's POST /api/scrape handler: a missing or falsy
url is a 400; a throwing scrapeWebsite surfaces as 500 (the handler prefixes
the already prefixed error message again, as the code does); a document
count of zero would be a 400, but scrapeWebsite always returns exactly one
document; otherwise the documents are chunked and written. -/
def scrapeHandler (reqUrl : Option String) (fetched : Except String String) : ScrapeResult :=
  match reqUrl with
  | none => ⟨{ status := 400, error := some "No URL provided." }, [], false⟩
  | some url =>
    if url = "" then ⟨{ status := 400, error := some "No URL provided." }, [], false⟩
    else
      match scrapeWebsite url fetched with
      | .error e => ⟨{ status := 500, error := some ("Failed to scrape website: " ++ e) }, [], false⟩
      | .ok docs =>
        if docs.length = 0 then
          ⟨{ status := 400, error := some "No content found at the provided URL." }, [], false⟩
        else
          let splits := splitDocuments chunkSize chunkOverlap docs
          ⟨{ status := 200,
             message := some ("Website content from '" ++ url ++ "' scraped and indexed successfully."),
             chunks := some splits.length }, splits, true⟩

/-- Canned reply of the main server's chat handler when retrieval returns no
chunks. -/
def cannedNoInfoReply : String :=
  "I don't have any relevant information to answer your question. Please make sure you've uploaded documents to the RAG store first."

/-- Source display of a retrieved chunk in the grounding block (JS
metadata?.source with a fallback for a falsy value). -/
def sourceDisplay (m : Metadata) : String :=
  if m.source = "" then "Unknown source" else m.source

/-- Page suffix of a retrieved chunk in the grounding block (JS treats page
number 0 as falsy, yielding no suffix). -/
def pageSuffix (m : Metadata) : String :=
  match m.page with
  | none => ""
  | some p => if p = 0 then "" else ", page " ++ toString p

/-- Grounding block of the main server's chat handler: one block per chunk,
in retrieval order, joined by blank lines. -/
def contextOf (docs : List Doc) : String :=
  String.intercalate "\n\n"
    (docs.enum.map (fun ip =>
      "Document " ++ toString (ip.1 + 1) ++ " (" ++ sourceDisplay ip.2.metadata ++
        pageSuffix ip.2.metadata ++ "):\n" ++ ip.2.pageContent))

/-- System instruction of the main server's chat handler (template literal
followed by trim, as in the code). -/
def systemPromptOf (context : String) : String :=
  trimStr ("\n    You are an AI assistant. Answer the user's question strictly using the provided context from uploaded documents.\n    If the answer is not present in the context, say you don't have enough information.\n    Always cite which document(s) you're referencing in your answer.\n    \n    Context from uploaded documents:\n    " ++ context ++ "\n    ")

/-- Result of a chat handler: the response, the k requested from the
retriever (none when validation failed first), and whether the chat model
was called. -/
structure ChatResult where
  resp : Resp
  requestedK : Option Nat
  modelCalled : Bool
deriving DecidableEq

/-- Model of the main server's POST /api/chat handler.  The similarity
search (retriever) and the chat model are external and passed as functions;
a missing or empty message is a 400; zero retrieved chunks short-circuit to
the canned reply with no model call; otherwise the grounding prompt is built
and the model's reply returned. -/
def chatHandler (search : String → Nat → List Doc) (gen : String → String)
    (reqMessage : Option String) : ChatResult :=
  match reqMessage with
  | none => ⟨{ status := 400, error := some "No message provided." }, none, false⟩
  | some m =>
    if m = "" then ⟨{ status := 400, error := some "No message provided." }, none, false⟩
    else
      let relevantDocs := search m 5
      if relevantDocs.length = 0 then
        ⟨{ status := 200, reply := some cannedNoInfoReply }, some 5, false⟩
      else
        let prompt := systemPromptOf (contextOf relevantDocs) ++ "\n\nUser question:\n" ++ m
        ⟨{ status := 200, reply := some (gen prompt) }, some 5, true⟩

/-- Grounding block of the Day4-RAG variant's chat handler (no source, only
an optional page suffix). -/
def day4ContextOf (docs : List Doc) : String :=
  String.intercalate "\n\n"
    (docs.enum.map (fun ip =>
      "Chunk " ++ toString (ip.1 + 1) ++
        (match ip.2.metadata.page with
         | none => ""
         | some p => if p = 0 then "" else " (page " ++ toString p ++ ")") ++
        ":\n" ++ ip.2.pageContent))

/-- System instruction of the Day4-RAG variant's chat handler. -/
def day4SystemPromptOf (context : String) : String :=
  trimStr ("\n    You are an AI assistant. Answer the user's question strictly using the provided context.\n    If the answer is not present in the context, say you don't have enough information.\n    \n    Context:\n    " ++ context ++ "\n    ")

/-- Model of the Day4-RAG server's POST /api/chat handler: it retrieves the
top 3 chunks and builds the prompt and calls the chat model unconditionally
— there is no zero-chunk short-circuit in this variant. -/
def day4ChatHandler (search : String → Nat → List Doc) (gen : String → String)
    (reqMessage : Option String) : ChatResult :=
  match reqMessage with
  | none => ⟨{ status := 400, error := some "No message provided." }, none, false⟩
  | some m =>
    if m = "" then ⟨{ status := 400, error := some "No message provided." }, none, false⟩
    else
      let relevantDocs := search m 3
      let prompt := day4SystemPromptOf (day4ContextOf relevantDocs) ++ "\n\nUser question:\n" ++ m
      ⟨{ status := 200, reply := some (gen prompt) }, some 3, true⟩

/-- State of the single application collection in the external Qdrant
database: its vector configuration (size and distance, as sent in the REST
create body) and the stored records (chunk content with metadata; the
embedding vectors themselves are opaque to the application and omitted).
The deployment variants name the collection chaicode-collection or
chaicode_collection; the model keeps the single global collection of the
spec's data model and abstracts the name. -/
structure Collection where
  size : Nat
  distance : String
  records : List Doc
deriving DecidableEq

/-- State of the external Qdrant database as the handlers can observe it:
whether it is reachable, and the collection if it exists. -/
structure QdrantState where
  reachable : Bool
  collection : Option Collection
deriving DecidableEq

/-- Vector configuration every creation site of the repository uses: size
768 (Google text-embedding-004 dimension) with cosine distance. -/
def newCollection : Collection := { size := 768, distance := "Cosine", records := [] }

/-- Model of getVectorStore (main server, pages-API stats and upload
handlers): connect to the existing collection, and when that fails because
the collection does not exist, create a new empty one; an unreachable
database makes both attempts fail. -/
def getVectorStore (s : QdrantState) : QdrantState × Except String Unit :=
  if s.reachable then
    match s.collection with
    | some _ => (s, .ok ())
    | none => ({ s with collection := some newCollection }, .ok ())
  else (s, .error "Store unavailable")

/-- Model of the pages-API GET /api/store/stats handler (same logic as the
main server's stats endpoint): non-GET methods are 405; otherwise
getVectorStore is called — creating the collection when absent — and a
fixed ready body is returned, or 500 when the store is unreachable. -/
def statsHandler (method : String) (s : QdrantState) : QdrantState × Resp :=
  if method ≠ "GET" then (s, { status := 405, error := some "Method not allowed" })
  else
    match getVectorStore s with
    | (s2, .ok _) =>
      (s2, { status := 200, message := some "Store is operational", storeStatus := some "ready" })
    | (s2, .error _) => (s2, { status := 500, error := some "Failed to get store statistics." })

/-- Model of the pages-API DELETE /api/store/clear handler (the main
server's clear endpoint has the same logic): non-DELETE methods are 405; an
unreachable database makes the REST delete throw, caught as 500; otherwise
the collection is deleted (a 404 for an absent collection also proceeds)
and immediately recreated empty with size 768 and cosine distance. -/
def clearHandler (method : String) (s : QdrantState) : QdrantState × Resp :=
  if method ≠ "DELETE" then (s, { status := 405, error := some "Method not allowed" })
  else if s.reachable then
    ({ s with collection := some newCollection },
     { status := 200, message := some "Store cleared and recreated successfully." })
  else (s, { status := 500, error := some "Failed to clear store." })

/-- Model of the Day4-RAG server's DELETE /api/store/clear handler: it only
responds with a success message and does not touch the collection at all. -/
def day4ClearHandler (s : QdrantState) : QdrantState × Resp :=
  (s, { status := 200, message := some "Store cleared successfully." })

/-- Model of a similarity search against the collection: an absent
collection or unreachable database is an error, otherwise up to k stored
records are returned (the cosine ranking is performed by the external
database; the model keeps stored order, which suffices for the emptiness
properties verified here — the query only selects the ranking). -/
def searchRecords (s : QdrantState) (_query : String) (k : Nat) : Except String (List Doc) :=
  if s.reachable then
    match s.collection with
    | some c => .ok (c.records.take k)
    | none => .error "Collection not found"
  else .error "Store unavailable"

/-- Environment variables the servers check at startup (main server and
Day4-RAG server alike). -/
def requiredEnvVars : List String := ["GOOGLE_API_KEY", "QDRANT_URL"]

/-- JS truthiness of process.env lookup: set and non-empty. -/
def envTruthy (env : String → Option String) (k : String) : Bool :=
  match env k with
  | none => false
  | some v => !(v = "")

/-- Model of the startup filter computing which required variables are
missing (JS filter over falsy env entries). -/
def missingEnvVars (env : String → Option String) : List String :=
  requiredEnvVars.filter (fun k => !envTruthy env k)

/-- Startup refuses to start (process.exit(1)) exactly when some required
variable is missing. -/
def startupFatal (env : String → Option String) : Bool :=
  !(missingEnvVars env).isEmpty

/-- Startup error message listing exactly the missing variables. -/
def startupErrorMessage (env : String → Option String) : String :=
  "Error: Missing required environment variables: " ++
    String.intercalate ", " (missingEnvVars env)

/-- Qdrant endpoint used by every qdrantConfig of the repository: the
QDRANT_URL environment variable with a falsy-fallback default. -/
def qdrantUrl (env : String → Option String) : String :=
  match env "QDRANT_URL" with
  | none => "http://localhost:6333"
  | some v => if v = "" then "http://localhost:6333" else v

/-- Join a list of pieces with a separator between consecutive pieces (the
inverse of splitting, used to reason about the splitter). -/
def interJoin (sep : List Char) : List (List Char) → List Char
  | [] => []
  | [p] => p
  | p :: q :: ps => p ++ sep ++ interJoin sep (q :: ps)

/-- Left fold form of joining pieces onto an accumulated chunk (mirrors the
accumulator of mergeGo). -/
def joinList (sep : List Char) : List Char → List (List Char) → List Char
  | a, [] => a
  | a, p :: ps => joinList sep (a ++ sep ++ p) ps

/-- Sample stored chunk used in concrete scenarios. -/
def sampleChunk : Doc :=
  { pageContent := "The sky is blue.",
    metadata := { source := "direct-input", type := some "text" } }

/-- Sample database state holding one stored chunk. -/
def sampleState : QdrantState :=
  { reachable := true,
    collection := some { size := 768, distance := "Cosine", records := [sampleChunk] } }

/-- Sample environment with only GOOGLE_API_KEY set. -/
def envOnlyGoogle : String → Option String :=
  fun k => if k = "GOOGLE_API_KEY" then some "test-key" else none

theorem consHead_ne_nil (c : Char) (l : List (List Char)) : consHead c l ≠ [] := by
  cases l <;> simp [consHead]

theorem jsSplitGo_ne_nil (sep : List Char) (fuel : Nat) (text : List Char) :
    jsSplitGo sep fuel text ≠ [] := by
  cases text with
  | nil => simp [jsSplitGo]
  | cons c rest =>
    cases fuel with
    | zero => simp [jsSplitGo]
    | succ n =>
      simp only [jsSplitGo]
      split
      · simp
      · exact consHead_ne_nil _ _

theorem interJoin_consHead (sep : List Char) (c : Char) (l : List (List Char))
    (h : l ≠ []) : interJoin sep (consHead c l) = c :: interJoin sep l := by
  match l with
  | [] => exact absurd rfl h
  | [p] => simp [consHead, interJoin]
  | p :: q :: ps => simp [consHead, interJoin, List.cons_append]

theorem interJoin_jsSplitGo (sep : List Char) (hsep : sep ≠ []) :
    ∀ (fuel : Nat) (text : List Char), text.length ≤ fuel →
      interJoin sep (jsSplitGo sep fuel text) = text := by
  intro fuel
  induction fuel with
  | zero =>
    intro text hlen
    have hnil : text = [] := by
      cases text with
      | nil => rfl
      | cons c r => simp at hlen
    subst hnil
    simp [jsSplitGo, interJoin]
  | succ n ih =>
    intro text hlen
    cases text with
    | nil => simp [jsSplitGo, interJoin]
    | cons c rest =>
      by_cases hp : sep.isPrefixOf (c :: rest)
      · have hstep : jsSplitGo sep (n + 1) (c :: rest) =
            [] :: jsSplitGo sep n (rest.drop (sep.length - 1)) := by
          simp [jsSplitGo, hp]
        rw [hstep]
        obtain ⟨s, ss, hS⟩ : ∃ s ss, jsSplitGo sep n (rest.drop (sep.length - 1)) = s :: ss := by
          rcases hE : jsSplitGo sep n (rest.drop (sep.length - 1)) with _ | ⟨s, ss⟩
          · exact absurd hE (jsSplitGo_ne_nil _ _ _)
          · exact ⟨s, ss, rfl⟩
        rw [hS]
        have hIJ : interJoin sep ([] :: s :: ss) = sep ++ interJoin sep (s :: ss) := by
          simp [interJoin]
        rw [hIJ, ← hS]
        have hdlen : (rest.drop (sep.length - 1)).length ≤ n := by
          have := List.length_drop (sep.length - 1) rest
          simp only [List.length_cons] at hlen
          omega
        rw [ih _ hdlen]
        have hpre : sep <+: (c :: rest) := by
          exact (List.isPrefixOf_iff_prefix).mp hp
        obtain ⟨t, ht⟩ := hpre
        have htd : t = (c :: rest).drop sep.length := by
          rw [← ht, List.drop_left]
        have hdropeq : (c :: rest).drop sep.length = rest.drop (sep.length - 1) := by
          match sep, hsep with
          | a :: as, _ => simp [List.drop_succ_cons]
        rw [← hdropeq, ← htd, ht]
      · have hstep : jsSplitGo sep (n + 1) (c :: rest) =
            consHead c (jsSplitGo sep n rest) := by
          simp [jsSplitGo, hp]
        rw [hstep, interJoin_consHead _ _ _ (jsSplitGo_ne_nil _ _ _)]
        have hrlen : rest.length ≤ n := by
          simp only [List.length_cons] at hlen
          omega
        rw [ih _ hrlen]

theorem jsSplitGo_mem_length (sep : List Char) :
    ∀ (fuel : Nat) (text : List Char), ∀ p ∈ jsSplitGo sep fuel text,
      p.length ≤ text.length := by
  intro fuel
  induction fuel with
  | zero =>
    intro text p hpmem
    cases text with
    | nil =>
      simp [jsSplitGo] at hpmem
      simp [hpmem]
    | cons c r =>
      simp [jsSplitGo] at hpmem
      simp [hpmem]
  | succ n ih =>
    intro text p hpmem
    cases text with
    | nil =>
      simp [jsSplitGo] at hpmem
      simp [hpmem]
    | cons c rest =>
      by_cases hp : sep.isPrefixOf (c :: rest)
      · rw [show jsSplitGo sep (n + 1) (c :: rest) =
            [] :: jsSplitGo sep n (rest.drop (sep.length - 1)) from by simp [jsSplitGo, hp]] at hpmem
        rcases List.mem_cons.mp hpmem with h0 | hmem
        · simp [h0]
        · have h1 := ih (rest.drop (sep.length - 1)) p hmem
          have h2 := List.length_drop (sep.length - 1) rest
          simp only [List.length_cons]
          omega
      · rw [show jsSplitGo sep (n + 1) (c :: rest) =
            consHead c (jsSplitGo sep n rest) from by simp [jsSplitGo, hp]] at hpmem
        obtain ⟨s, ss, hS⟩ : ∃ s ss, jsSplitGo sep n rest = s :: ss := by
          rcases hE : jsSplitGo sep n rest with _ | ⟨s, ss⟩
          · exact absurd hE (jsSplitGo_ne_nil _ _ _)
          · exact ⟨s, ss, rfl⟩
        rw [hS] at hpmem
        simp only [consHead] at hpmem
        rcases List.mem_cons.mp hpmem with h0 | hmem
        · have h1 := ih rest s (by rw [hS]; exact List.mem_cons_self _ _)
          subst h0
          simp only [List.length_cons]
          omega
        · have h1 := ih rest p (by rw [hS]; exact List.mem_cons_of_mem _ hmem)
          simp only [List.length_cons]
          omega

theorem jsSplit_ne_nil (sep text : List Char) (hsep : sep ≠ []) :
    jsSplit sep text ≠ [] := by
  have h : sep.isEmpty = false := by
    cases sep with
    | nil => exact absurd rfl hsep
    | cons a as => rfl
  simp [jsSplit, h]
  exact jsSplitGo_ne_nil _ _ _

theorem interJoin_jsSplit (sep text : List Char) (hsep : sep ≠ []) :
    interJoin sep (jsSplit sep text) = text := by
  have h : sep.isEmpty = false := by
    cases sep with
    | nil => exact absurd rfl hsep
    | cons a as => rfl
  simp [jsSplit, h]
  exact interJoin_jsSplitGo sep hsep text.length text le_rfl

theorem jsSplit_mem_length (sep text : List Char) :
    ∀ p ∈ jsSplit sep text, p.length ≤ text.length := by
  intro p hp
  by_cases hs : sep.isEmpty
  · simp [jsSplit, hs] at hp
    obtain ⟨c, hc, hpc⟩ := hp
    have : text ≠ [] := by
      intro h
      rw [h] at hc
      exact absurd hc (List.not_mem_nil c)
    have := List.length_pos.mpr this
    simp [← hpc]
    omega
  · simp [jsSplit, hs] at hp
    exact jsSplitGo_mem_length sep text.length text p hp

theorem joinList_eq_interJoin (sep : List Char) :
    ∀ (ps : List (List Char)) (a : List Char),
      joinList sep a ps = interJoin sep (a :: ps) := by
  intro ps
  induction ps with
  | nil => intro a; simp [joinList, interJoin]
  | cons p ps ih =>
    intro a
    rw [show joinList sep a (p :: ps) = joinList sep (a ++ sep ++ p) ps from rfl, ih]
    cases ps with
    | nil => simp [interJoin]
    | cons q qs => simp [interJoin, List.append_assoc]

theorem le_length_joinList (sep : List Char) :
    ∀ (ps : List (List Char)) (a : List Char),
      a.length ≤ (joinList sep a ps).length := by
  intro ps
  induction ps with
  | nil => intro a; simp [joinList]
  | cons p ps ih =>
    intro a
    have h1 := ih (a ++ sep ++ p)
    have h2 : a.length ≤ (a ++ sep ++ p).length := by
      simp [List.length_append]
    exact le_trans h2 h1

theorem mergeGo_no_emit (sep : List Char) (cs ov : Nat) :
    ∀ (ps : List (List Char)) (a : List Char),
      (joinList sep a ps).length ≤ cs →
      mergeGo sep cs ov ps (some a) = [joinList sep a ps] := by
  intro ps
  induction ps with
  | nil => intro a h; simp [mergeGo, joinList]
  | cons p ps ih =>
    intro a h
    have hJ : joinList sep a (p :: ps) = joinList sep (a ++ sep ++ p) ps := rfl
    rw [hJ] at h ⊢
    have hfit : (a ++ sep ++ p).length ≤ cs :=
      le_trans (le_length_joinList sep ps (a ++ sep ++ p)) h
    rw [show mergeGo sep cs ov (p :: ps) (some a) =
        mergeGo sep cs ov ps (some (a ++ sep ++ p)) from by
      simp only [mergeGo]
      rw [if_pos hfit]]
    exact ih _ h

theorem mergeGo_mem_length (sep : List Char) (cs ov : Nat) :
    ∀ (ps : List (List Char)) (acc : Option (List Char)),
      (∀ p ∈ ps, p.length ≤ cs) → (∀ a, acc = some a → a.length ≤ cs) →
      ∀ ch ∈ mergeGo sep cs ov ps acc, ch.length ≤ cs := by
  intro ps
  induction ps with
  | nil =>
    intro acc hps hacc ch hch
    cases acc with
    | none => simp [mergeGo] at hch
    | some a =>
      simp [mergeGo] at hch
      rw [hch]
      exact hacc a rfl
  | cons p ps ih =>
    intro acc hps hacc ch hch
    have hp : p.length ≤ cs := hps p (List.mem_cons_self _ _)
    have hps2 : ∀ q ∈ ps, q.length ≤ cs := fun q hq => hps q (List.mem_cons_of_mem _ hq)
    cases acc with
    | none =>
      rw [show mergeGo sep cs ov (p :: ps) none = mergeGo sep cs ov ps (some p) from by
        simp [mergeGo]] at hch
      exact ih (some p) hps2 (by intro a ha; cases ha; exact hp) ch hch
    | some a =>
      by_cases hfit : (a ++ sep ++ p).length ≤ cs
      · rw [show mergeGo sep cs ov (p :: ps) (some a) =
            mergeGo sep cs ov ps (some (a ++ sep ++ p)) from by
          simp only [mergeGo]
          rw [if_pos hfit]] at hch
        exact ih _ hps2 (by intro b hb; cases hb; exact hfit) ch hch
      · rw [show mergeGo sep cs ov (p :: ps) (some a) =
            a :: mergeGo sep cs ov ps (some (nextAcc sep cs ov p a)) from by
          simp only [mergeGo]
          rw [if_neg hfit]] at hch
        rcases List.mem_cons.mp hch with h0 | hmem
        · rw [h0]; exact hacc a rfl
        · refine ih _ hps2 ?_ ch hmem
          intro b hb
          cases hb
          unfold nextAcc
          by_cases hemp : (takeLast (min ov (cs - (sep.length + p.length))) a).isEmpty
          · simp [hemp]
            exact hp
          · simp [hemp]
            have hne : takeLast (min ov (cs - (sep.length + p.length))) a ≠ [] := by
              intro hcontra
              rw [hcontra] at hemp
              simp at hemp
            have h1 : 1 ≤ (takeLast (min ov (cs - (sep.length + p.length))) a).length :=
              List.length_pos.mpr hne
            have h2 : (takeLast (min ov (cs - (sep.length + p.length))) a).length ≤
                min ov (cs - (sep.length + p.length)) := by
              simp [takeLast, List.length_drop]
              omega
            have h3 : min ov (cs - (sep.length + p.length)) ≤ cs - (sep.length + p.length) :=
              min_le_right _ _
            simp [List.length_append]
            omega

theorem chooseSep_fits (cs : Nat) (text : List Char) (hcs : 1 ≤ cs) :
    ∀ p ∈ jsSplit (chooseSep cs text) text, p.length ≤ cs := by
  unfold chooseSep
  rcases hfind : specSeparators.find? (fun sep => piecesFit cs sep text) with _ | sep
  · exfalso
    have hmem : ([] : List Char) ∈ specSeparators := by simp [specSeparators]
    have h1 := List.find?_eq_none.mp hfind [] hmem
    apply h1
    simp only [piecesFit, List.all_eq_true]
    intro p hp
    simp only [jsSplit, List.isEmpty_nil, if_true] at hp
    obtain ⟨c, _, hpc⟩ := List.mem_map.mp hp
    simp [← hpc]
    omega
  · have hpred := List.find?_some hfind
    simp only [piecesFit, List.all_eq_true] at hpred
    simp only [Option.getD_some]
    intro p hp
    have := hpred p hp
    simpa using this

theorem splitText_mem_length (cs ov : Nat) (text : List Char) (hcs : 1 ≤ cs) :
    ∀ ch ∈ splitText cs ov text, ch.length ≤ cs := by
  intro ch hch
  unfold splitText at hch
  have hch2 := List.mem_of_mem_filter hch
  exact mergeGo_mem_length (chooseSep cs text) cs ov _ none
    (chooseSep_fits cs text hcs) (by intro a ha; cases ha) ch hch2

theorem splitText_short (cs ov : Nat) (text : List Char) (hne : text ≠ [])
    (hlen : text.length ≤ cs) : splitText cs ov text = [text] := by
  have hsep : chooseSep cs text = ['\n', '\n'] := by
    unfold chooseSep specSeparators
    rw [List.find?_cons_of_pos]
    · rfl
    · simp only [piecesFit, List.all_eq_true]
      intro p hp
      have := jsSplit_mem_length ['\n', '\n'] text p hp
      simp
      omega
  unfold splitText
  rw [hsep]
  obtain ⟨p, ps, hS⟩ : ∃ p ps, jsSplit ['\n', '\n'] text = p :: ps := by
    rcases hE : jsSplit ['\n', '\n'] text with _ | ⟨p, ps⟩
    · exact absurd hE (jsSplit_ne_nil _ _ (by simp))
    · exact ⟨p, ps, rfl⟩
  rw [hS]
  have hjoin : joinList ['\n', '\n'] p ps = text := by
    rw [joinList_eq_interJoin, ← hS, interJoin_jsSplit _ _ (by simp)]
  rw [show mergeGo ['\n', '\n'] cs ov (p :: ps) none =
      mergeGo ['\n', '\n'] cs ov ps (some p) from by simp [mergeGo]]
  rw [mergeGo_no_emit _ _ _ ps p (by rw [hjoin]; exact hlen), hjoin]
  have : text.isEmpty = false := by
    cases text with
    | nil => exact absurd rfl hne
    | cons c r => rfl
  simp [this]

theorem stringMk_data (s : String) : String.mk s.data = s := rfl

theorem splitTextStr_short (cs ov : Nat) (s : String) (hne : 0 < s.length)
    (hlen : s.length ≤ cs) : splitTextStr cs ov s = [s] := by
  have hne2 : s.data ≠ [] := by
    intro h
    have : s.length = 0 := by simp [String.length, h]
    omega
  unfold splitTextStr
  rw [splitText_short cs ov s.data hne2 hlen]
  simp [stringMk_data]

theorem splitTextStr_mem_length (cs ov : Nat) (s : String) (hcs : 1 ≤ cs) :
    ∀ c ∈ splitTextStr cs ov s, c.length ≤ cs := by
  intro c hc
  unfold splitTextStr at hc
  obtain ⟨l, hl, hcl⟩ := List.mem_map.mp hc
  have := splitText_mem_length cs ov s.data hcs l hl
  rw [← hcl]
  simpa [String.length] using this

theorem splitDocuments_short (d : Doc) (hne : 0 < d.pageContent.length)
    (hlen : d.pageContent.length ≤ chunkSize) :
    splitDocuments chunkSize chunkOverlap [d] = [d] := by
  unfold splitDocuments
  simp only [List.flatMap_cons, List.flatMap_nil, List.append_nil]
  rw [splitTextStr_short chunkSize chunkOverlap d.pageContent hne hlen]
  simp

theorem splitDocuments_mem_length (docs : List Doc) :
    ∀ c ∈ splitDocuments chunkSize chunkOverlap docs, c.pageContent.length ≤ chunkSize := by
  intro c hc
  unfold splitDocuments at hc
  obtain ⟨d, _, hcd⟩ := List.mem_flatMap.mp hc
  obtain ⟨s, hs, hcs⟩ := List.mem_map.mp hcd
  have := splitTextStr_mem_length chunkSize chunkOverlap d.pageContent (by simp [chunkSize]) s hs
  rw [← hcs]
  simpa using this

theorem splitTextStr_empty : splitTextStr chunkSize chunkOverlap "" = [] := by decide

/-- C1: in the main server's /api/chat handler, a chat request whose
similarity search returns zero chunks gets the canned reply stating no
relevant information is available and prompting the user to ingest data
first, and the chat-completion model is not called.  (Amended: this holds
for the main server; the Day4-RAG /api/chat variant has no such
short-circuit, see the counterexample.) -/
theorem C1_emptyRetrieval : ∀ (search : String → Nat → List Doc) (gen : String → String)
    (m : String), m ≠ "" → search m 5 = [] →
    chatHandler search gen (some m) =
      ⟨{ status := 200, reply := some cannedNoInfoReply }, some 5, false⟩ := by
  intro search gen m hm hs
  simp [chatHandler, hm, hs]

theorem C1_emptyRetrieval_witness :
    chatHandler (fun _ _ => []) (fun _ => "model output") (some "What color is the sky?") =
      ⟨{ status := 200, reply := some cannedNoInfoReply }, some 5, false⟩ :=
  C1_emptyRetrieval (fun _ _ => []) (fun _ => "model output") "What color is the sky?"
    (by decide) rfl

/-- C1 counterexample: the Day4-RAG /api/chat handler calls the chat model
even when the similarity search returns zero chunks; its reply is the model
output, not the canned no-information reply. -/
theorem C1_counterexample :
    (day4ChatHandler (fun _ _ => []) (fun _ => "model output")
        (some "What color is the sky?")).modelCalled = true
  ∧ (day4ChatHandler (fun _ _ => []) (fun _ => "model output")
        (some "What color is the sky?")).resp.reply = some "model output" := by
  constructor
  · decide
  · decide

/-- C2: the clear operation of the pages-API and main-server clear handlers
deletes the collection outright and immediately recreates it empty with the
same vector configuration (size 768, cosine distance), and every search
issued against the resulting state returns the empty sequence.  (Amended:
this holds for those handlers; the Day4-RAG clear variant is a no-op, see
the counterexample.) -/
theorem C2_clearRecreates : ∀ (s : QdrantState) (q : String) (k : Nat),
    (clearHandler "DELETE" s).2.status = 200 →
    ((clearHandler "DELETE" s).1.collection = some newCollection
     ∧ searchRecords (clearHandler "DELETE" s).1 q k = .ok []) := by
  intro s q k h
  by_cases hr : s.reachable
  · constructor
    · simp [clearHandler, hr]
    · simp [clearHandler, searchRecords, hr, newCollection]
  · exfalso
    simp [clearHandler, hr] at h

theorem C2_clearRecreates_witness :
    (clearHandler "DELETE" sampleState).1.collection = some newCollection
  ∧ searchRecords (clearHandler "DELETE" sampleState).1 "any query" 5 = .ok [] :=
  C2_clearRecreates sampleState "any query" 5 (by decide)

/-- C2 counterexample: the Day4-RAG clear handler reports success (HTTP
200) without deleting or recreating anything — the state is unchanged, the
stored chunk survives, and a search issued after this "successful clear"
still returns it. -/
theorem C2_counterexample :
    (day4ClearHandler sampleState).2.status = 200
  ∧ (day4ClearHandler sampleState).1 = sampleState
  ∧ searchRecords (day4ClearHandler sampleState).1 "any query" 5 = .ok [sampleChunk]
  ∧ Except.ok [sampleChunk] ≠ (Except.ok [] : Except String (List Doc)) := by
  refine ⟨rfl, rfl, rfl, by simp⟩

/-- C3: a scrape request whose fetched page collapses and trims to zero
characters of text.  (Amended: such a request is not rejected with an
empty-content 400 — scrapeWebsite wraps even an empty text in exactly one
document, so the zero-documents guard never fires; the handler splits the
empty document into zero chunks and responds HTTP 200 with chunks 0,
ingesting nothing.) -/
theorem C3_emptyScrape : ∀ (url body : String), url ≠ "" → collapseWsTrim body = "" →
    (scrapeHandler (some url) (.ok body)).resp.status = 200
  ∧ (scrapeHandler (some url) (.ok body)).resp.chunks = some 0
  ∧ (scrapeHandler (some url) (.ok body)).splits = [] := by
  intro url body hurl hbody
  have hdocs : scrapeWebsite url (.ok body) =
      .ok [{ pageContent := "", metadata := { source := url, type := some "website" } }] := by
    simp [scrapeWebsite, hbody]
  simp only [scrapeHandler]
  rw [if_neg hurl, hdocs]
  simp [splitDocuments, splitTextStr_empty]

theorem C3_emptyScrape_witness :
    (scrapeHandler (some "https://example.com") (.ok "  ")).resp.status = 200
  ∧ (scrapeHandler (some "https://example.com") (.ok "  ")).resp.chunks = some 0
  ∧ (scrapeHandler (some "https://example.com") (.ok "  ")).splits = [] :=
  C3_emptyScrape "https://example.com" "  " (by decide) (by decide)

/-- C3 counterexample: a concrete scrape whose extracted body text trims to
the empty string is answered with HTTP 200 and chunks 0 — not with the
empty-content 400 the claim asserts. -/
theorem C3_counterexample :
    (scrapeHandler (some "https://blank.example.org") (.ok " \n ")).resp.status = 200
  ∧ (scrapeHandler (some "https://blank.example.org") (.ok " \n ")).resp.chunks = some 0
  ∧ (scrapeHandler (some "https://blank.example.org") (.ok " \n ")).resp.status ≠ 400 := by
  refine ⟨by decide, by decide, by decide⟩

/-- C4: an uploaded PDF on which text extraction throws does not fail the
request: the handler responds HTTP 200 and produces exactly one document
whose content is the fixed explanatory message with the error detail
appended.  (Amended: the metadata note is "Manual extraction required",
with a capital M, not "manual extraction required".) -/
theorem C4_pdfDegrade : ∀ (now filename e contentStr : String),
    (uploadHandler now (some { originalname := filename, mimetype := "application/pdf",
                               contentStr := contentStr }) (.error e)).resp.status = 200
  ∧ (uploadHandler now (some { originalname := filename, mimetype := "application/pdf",
                               contentStr := contentStr }) (.error e)).docs =
      [{ pageContent := pdfFailurePre filename ++ e,
         metadata := { source := filename, type := some "pdf", error := some e,
                       note := some "Manual extraction required" } }] := by
  intro now filename e contentStr
  constructor
  · rfl
  · rfl

/-- C4 counterexample: the placeholder document's metadata note is the
string "Manual extraction required", which differs from the claimed
"manual extraction required". -/
theorem C4_counterexample :
    (processPDF "t0" "scan.pdf" (.error "boom")).map (fun d => d.metadata.note) =
      [some "Manual extraction required"]
  ∧ some "Manual extraction required" ≠ some "manual extraction required" := by
  refine ⟨rfl, by decide⟩

/-- C5: every document produced by the Source Normalizer carries its source
identifier (filename, URL, or direct-input) in its metadata.  (Amended:
documents from pdf, raw-text and website ingestion also carry the matching
type tag, but text/CSV file documents carry no type tag at all.) -/
theorem C5_metadata : ∀ (now : String) (inp : IngestionInput) (docs : List Doc) (d : Doc),
    normalize now inp = .ok docs → d ∈ docs →
    d.metadata.source = inputSource inp ∧ d.metadata.type = actualTypeTag inp := by
  intro now inp docs d hn hd
  cases inp with
  | pdfFile fn load =>
    simp only [normalize, Except.ok.injEq] at hn
    subst hn
    cases load with
    | error e =>
      simp [processPDF] at hd
      subst hd
      exact ⟨rfl, rfl⟩
    | ok pages =>
      by_cases hp : pages.isEmpty
      · simp [processPDF, hp] at hd
        subst hd
        exact ⟨rfl, rfl⟩
      · simp [processPDF, hp] at hd
        subst hd
        exact ⟨rfl, rfl⟩
  | textFile fn c =>
    simp only [normalize, Except.ok.injEq] at hn
    subst hn
    simp [processTextFile] at hd
    subst hd
    exact ⟨rfl, rfl⟩
  | csvFile fn c =>
    simp only [normalize, Except.ok.injEq] at hn
    subst hn
    simp [processTextFile] at hd
    subst hd
    exact ⟨rfl, rfl⟩
  | rawText t =>
    by_cases ht : trimStr t = ""
    · simp [normalize, ht] at hn
    · simp only [normalize, if_neg ht, Except.ok.injEq] at hn
      subst hn
      simp at hd
      subst hd
      exact ⟨rfl, rfl⟩
  | website url fetched =>
    cases fetched with
    | error e => simp [normalize, scrapeWebsite] at hn
    | ok body =>
      simp only [normalize, scrapeWebsite, Except.ok.injEq] at hn
      subst hn
      simp at hd
      subst hd
      exact ⟨rfl, rfl⟩

theorem C5_metadata_witness :
    ({ pageContent := "hello world", metadata := { source := "notes.txt" } } : Doc).metadata.source =
        inputSource (.textFile "notes.txt" "hello world")
  ∧ ({ pageContent := "hello world", metadata := { source := "notes.txt" } } : Doc).metadata.type =
        actualTypeTag (.textFile "notes.txt" "hello world") :=
  C5_metadata "t0" (.textFile "notes.txt" "hello world")
    (processTextFile "hello world" "notes.txt")
    { pageContent := "hello world", metadata := { source := "notes.txt" } }
    rfl (by decide)

/-- C5 counterexample: a CSV file upload produces a document whose metadata
has no type tag at all — none is not one of the claimed tags. -/
theorem C5_counterexample :
    (processTextFile "alpha,beta\n1,2" "data.csv").map (fun d => d.metadata.type) = [none]
  ∧ (none : Option String) ∉ [some "pdf", some "text", some "csv", some "website"] := by
  refine ⟨rfl, by decide⟩

/-- C6: a document whose (per the data model, non-empty) content is shorter
than the configured chunk size of 1000 characters splits into exactly one
chunk identical to the document; every chunk produced from any document has
content length at most the chunk size; and POST /api/text with the text
"The sky is blue." responds HTTP 200 with chunks equal to 1. -/
theorem C6_chunking :
    (∀ d : Doc, 0 < d.pageContent.length → d.pageContent.length < chunkSize →
      splitDocuments chunkSize chunkOverlap [d] = [d])
  ∧ (∀ (docs : List Doc) (c : Doc), c ∈ splitDocuments chunkSize chunkOverlap docs →
      c.pageContent.length ≤ chunkSize)
  ∧ ((textHandler "2025-01-01T00:00:00.000Z" (some "The sky is blue.")).resp.status = 200
      ∧ (textHandler "2025-01-01T00:00:00.000Z" (some "The sky is blue.")).resp.chunks = some 1) := by
  refine ⟨?_, ?_, ?_, ?_⟩
  · intro d h0 h1
    exact splitDocuments_short d h0 (le_of_lt h1)
  · intro docs c hc
    exact splitDocuments_mem_length docs c hc
  · decide
  · decide

theorem C6_chunking_witness :
    splitDocuments chunkSize chunkOverlap
        [{ pageContent := "Hi", metadata := { source := "w.txt" } }] =
      [{ pageContent := "Hi", metadata := { source := "w.txt" } }] :=
  C6_chunking.1 { pageContent := "Hi", metadata := { source := "w.txt" } }
    (by decide) (by decide)

/-- C7: the /api/text handler rejects a missing, empty, or whitespace-only
text field with HTTP 400 without reaching the vector-store write path, and
for any other text builds the single normalized document whose content is
the input trimmed of leading and trailing whitespace, with metadata source
direct-input. -/
theorem C7_textValidation : ∀ (now : String) (reqText : Option String),
    ((reqText = none ∨ (∃ t, reqText = some t ∧ trimStr t = "")) →
      ((textHandler now reqText).resp.status = 400
       ∧ (textHandler now reqText).storeCalled = false))
  ∧ (∀ t, reqText = some t → trimStr t ≠ "" →
      (textHandler now reqText).doc =
        some { pageContent := trimStr t,
               metadata := { source := "direct-input", type := some "text",
                             timestamp := some now } }) := by
  intro now reqText
  constructor
  · intro h
    rcases h with h | ⟨t, ht, htr⟩
    · subst h
      exact ⟨rfl, rfl⟩
    · subst ht
      simp [textHandler, htr]
  · intro t ht htr
    subst ht
    simp [textHandler, htr]

theorem C7_textValidation_witness :
    ((textHandler "t0" (some "   ")).resp.status = 400
     ∧ (textHandler "t0" (some "   ")).storeCalled = false)
  ∧ (textHandler "t0" (some "  The sky is blue.  ")).doc =
      some { pageContent := "The sky is blue.",
             metadata := { source := "direct-input", type := some "text",
                           timestamp := some "t0" } } := by
  constructor
  · exact (C7_textValidation "t0" (some "   ")).1 (Or.inr ⟨"   ", rfl, by decide⟩)
  · have h := (C7_textValidation "t0" (some "  The sky is blue.  ")).2
      "  The sky is blue.  " rfl (by decide)
    rw [h]
    decide

/-- C8: the process refuses to start exactly when a required environment
variable is missing, reporting exactly which ones are missing.  (Amended:
the required variables are GOOGLE_API_KEY and QDRANT_URL — a missing
QDRANT_URL is also fatal at startup, even though qdrantConfig would default
it to http://localhost:6333.) -/
theorem C8_envCheck : ∀ env : String → Option String,
    (startupFatal env = false ↔
      (envTruthy env "GOOGLE_API_KEY" = true ∧ envTruthy env "QDRANT_URL" = true))
  ∧ (envTruthy env "QDRANT_URL" = false → qdrantUrl env = "http://localhost:6333")
  ∧ (∀ k, k ∈ missingEnvVars env ↔ (k ∈ requiredEnvVars ∧ envTruthy env k = false)) := by
  intro env
  refine ⟨?_, ?_, ?_⟩
  · cases hG : envTruthy env "GOOGLE_API_KEY" <;> cases hQ : envTruthy env "QDRANT_URL" <;>
      simp [startupFatal, missingEnvVars, requiredEnvVars, hG, hQ]
  · intro h
    unfold qdrantUrl
    unfold envTruthy at h
    cases henv : env "QDRANT_URL" with
    | none => rfl
    | some v =>
      rw [henv] at h
      simp at h
      simp [h]
  · intro k
    simp [missingEnvVars, List.mem_filter]

theorem C8_envCheck_witness :
    qdrantUrl envOnlyGoogle = "http://localhost:6333" :=
  (C8_envCheck envOnlyGoogle).2.1 (by decide)

/-- C8 counterexample: with GOOGLE_API_KEY set but QDRANT_URL unset,
startup is fatal and QDRANT_URL is reported missing — contradicting the
claim that GOOGLE_API_KEY is the only required variable and a missing
QDRANT_URL is not fatal. -/
theorem C8_counterexample :
    startupFatal envOnlyGoogle = true
  ∧ missingEnvVars envOnlyGoogle = ["QDRANT_URL"] := by
  refine ⟨by decide, by decide⟩

/-- C9: the retrieval step of a chat request.  (Amended: the main server's
chat handler requests the top k = 5 chunks; the Day4-RAG variant requests
k = 3, see the counterexample.) -/
theorem C9_retrievalK : ∀ (search : String → Nat → List Doc) (gen : String → String)
    (m : String), m ≠ "" → (chatHandler search gen (some m)).requestedK = some 5 := by
  intro search gen m hm
  by_cases hlen : (search m 5).length = 0 <;> simp [chatHandler, hm, hlen]

theorem C9_retrievalK_witness :
    (chatHandler (fun _ _ => []) (fun _ => "reply") (some "hi")).requestedK = some 5 :=
  C9_retrievalK (fun _ _ => []) (fun _ => "reply") "hi" (by decide)

/-- C9 counterexample: the Day4-RAG chat handler requests the top 3 chunks,
not 5. -/
theorem C9_counterexample :
    (day4ChatHandler (fun _ _ => []) (fun _ => "reply") (some "hello")).requestedK = some 3
  ∧ (3 : Nat) ≠ 5 := by
  refine ⟨by decide, by decide⟩

/-- C10: GET /api/store/stats is not read-only: a successful (HTTP 200)
stats response guarantees the collection exists afterwards, and a call made
while the (reachable) database has no collection creates the collection
(size 768, cosine, empty) as a side effect before responding status
ready. -/
theorem C10_statsCreates : ∀ s : QdrantState,
    ((statsHandler "GET" s).2.status = 200 →
      (statsHandler "GET" s).1.collection.isSome = true)
  ∧ (s.reachable = true → s.collection = none →
      ((statsHandler "GET" s).1.collection = some newCollection
       ∧ (statsHandler "GET" s).2.storeStatus = some "ready")) := by
  intro s
  constructor
  · intro h
    by_cases hr : s.reachable
    · cases hc : s.collection with
      | none => simp [statsHandler, getVectorStore, hr, hc]
      | some c => simp [statsHandler, getVectorStore, hr, hc]
    · exfalso
      simp [statsHandler, getVectorStore, hr] at h
  · intro hr hc
    constructor
    · simp [statsHandler, getVectorStore, hr, hc]
    · simp [statsHandler, getVectorStore, hr, hc]

theorem C10_statsCreates_witness :
    ((statsHandler "GET" { reachable := true, collection := none }).1.collection.isSome = true)
  ∧ ((statsHandler "GET" { reachable := true, collection := none }).1.collection =
        some newCollection) := by
  constructor
  · exact (C10_statsCreates { reachable := true, collection := none }).1 (by decide)
  · exact ((C10_statsCreates { reachable := true, collection := none }).2 rfl rfl).1

end RagVerif
